import Mathlib

/-!
Verification of the audiothek2rss query-and-feed pipeline.

Shallow embedding of `audiothek2rss.py`. Python strings are rendered as
`String` (inert record fields) or `List Char` (wherever character-level
computation matters), Python `None` as `Option.none`, fallible operations
as `Except` / `Option`.
-/

set_option autoImplicit false

namespace Audiothek

/-! ## Python `%` string formatting

The script formats strings with the `%` operator in several places
(`getCategories`, `getProgramSets`, `getOptions`, `main`).  `pyFormatChars`
embeds the subset of Python `%`-formatting the script uses: the `%s` and
`%d` conversions, the `%%` escape, and the error cases (an argument left
over after the template is exhausted, a missing argument, a string argument
handed to `%d`, an unsupported conversion character).  `none` stands for
the `TypeError`/`ValueError` Python raises in those cases. -/

/-- Argument to Python `%` formatting: the script passes strings and ints. -/
inductive FmtArg where
  | str (s : List Char)
  | int (i : Int)
  deriving Repr, DecidableEq

/-- Decimal digits of a natural number; the first argument is fuel so that
the definition is structurally recursive (`n + 1` steps always suffice). -/
def natReprAux : Nat → Nat → List Char
  | 0, _ => []
  | fuel + 1, n =>
    if n < 10 then [Nat.digitChar n]
    else natReprAux fuel (n / 10) ++ [Nat.digitChar (n % 10)]

/-- Decimal representation of a natural number. -/
def natRepr (n : Nat) : List Char :=
  natReprAux (n + 1) n

/-- Decimal representation of an integer, as Python `str`/`%d` renders it. -/
def intRepr (i : Int) : List Char :=
  if i < 0 then '-' :: natRepr i.natAbs else natRepr i.natAbs

/-- Python `str()` of a format argument (used by the `%s` conversion). -/
def FmtArg.render : FmtArg → List Char
  | .str s => s
  | .int i => intRepr i

/-- Python `repr()` of a format argument, as the `%r` conversion applies
it: an integer renders as its decimal text, and a string free of quotes,
backslashes and non-printable characters (the only shapes instantiated in
this development) is wrapped in single quotes. -/
def FmtArg.reprRender : FmtArg → List Char
  | .str s => '\'' :: (s ++ ['\''])
  | .int i => intRepr i

/-- Python `template % args` on character lists; `none` models a raised
`TypeError` (argument left over after the template is exhausted, missing
argument, string argument handed to `%d`, trailing `%`).  The `%s`, `%d`,
`%r` and `%%` conversions are modelled; Python's remaining conversion
forms (`%a`, `%c`, numeric conversions, flag/width/precision prefixes such
as `%10s` or `%.0s`) are outside the modelled grammar and also map to
`none` here, so a theorem that quantifies over templates restricts itself
to the fully modelled grammar via `onlySimpleSpecs`. -/
def pyFormatChars : List Char → List FmtArg → Option (List Char)
  | [], [] => some []
  | [], _ :: _ => none
  | c :: rest, args =>
    if c = '%' then
      match rest with
      | [] => none
      | c2 :: rest2 =>
        if c2 = '%' then (pyFormatChars rest2 args).map (fun r => '%' :: r)
        else if c2 = 's' then
          match args with
          | [] => none
          | a :: args2 => (pyFormatChars rest2 args2).map (fun r => a.render ++ r)
        else if c2 = 'd' then
          match args with
          | (FmtArg.int i) :: args2 =>
            (pyFormatChars rest2 args2).map (fun r => intRepr i ++ r)
          | _ => none
        else if c2 = 'r' then
          match args with
          | [] => none
          | a :: args2 => (pyFormatChars rest2 args2).map (fun r => a.reprRender ++ r)
        else none
    else (pyFormatChars rest args).map (fun r => c :: r)

/-- Tests that every conversion in the template is `%%`, `%s` or `%d`:
the conversion grammar on which `pyFormatChars` agrees with Python in all
cases.  (Python additionally accepts conversions such as `%r` or
flag/width/precision forms, which can consume an argument successfully.) -/
def onlySimpleSpecs : List Char → Bool
  | [] => true
  | c :: rest =>
    if c = '%' then
      match rest with
      | [] => false
      | c2 :: rest2 => (c2 == '%' || c2 == 's' || c2 == 'd') && onlySimpleSpecs rest2
    else onlySimpleSpecs rest

/-! ## Substring test and `str.rfind`

`"%d" not in options.output` and `options.output.rfind(".")` from
`getOptions` (lines 308-314). -/

/-- Tests whether `pat` begins the list `s` (Python slice comparison). -/
def isPre : List Char → List Char → Bool
  | [], _ => true
  | _ :: _, [] => false
  | a :: as, b :: bs => a == b && isPre as bs

/-- Python substring containment `pat in s`. -/
def hasSub (pat : List Char) : List Char → Bool
  | [] => pat == []
  | c :: rest => isPre pat (c :: rest) || hasSub pat rest

/-- Python `s.rfind(c)`: index of the last occurrence of `c`, `-1` if absent. -/
def rfind (s : List Char) (c : Char) : Int :=
  match s with
  | [] => -1
  | x :: xs =>
    let r := rfind xs c
    if r ≥ 0 then r + 1 else if x == c then 0 else -1

/-- Output-template correction from `getOptions`: when the template lacks a
`%d`, insert one before the last `.` (or append one when there is no dot). -/
def correctOutputTemplate (output : List Char) : List Char :=
  if hasSub ['%', 'd'] output then output
  else
    let lastDot := rfind output '.'
    if lastDot > -1 then
      output.take lastDot.toNat ++ ['%', 'd'] ++ output.drop lastDot.toNat
    else
      output ++ ['%', 'd']

/-! ## Markup escaping

`html.escape` (quote=True) as called on titles, synopses and image URLs;
the text escaping `xml.etree.ElementTree` applies on `write`; and the
entity resolution a standard XML parser performs when reading the feed
back.  The stdlib functions are sequences of global replaces whose
replacement texts are never re-scanned, so they are rendered as
character-wise expansions. -/

/-- Expansion of one character under `html.escape(s, quote=True)`. -/
def htmlEscapeChar (c : Char) : List Char :=
  if c = '&' then "&amp;".data
  else if c = '<' then "&lt;".data
  else if c = '>' then "&gt;".data
  else if c = '"' then "&quot;".data
  else if c = '\'' then "&#x27;".data
  else [c]

/-- Python `html.escape(s, quote=True)`. -/
def htmlEscape (s : List Char) : List Char :=
  (s.map htmlEscapeChar).flatten

/-- Expansion of one character of element text in `ElementTree.write`. -/
def xmlEscapeTextChar (c : Char) : List Char :=
  if c = '&' then "&amp;".data
  else if c = '<' then "&lt;".data
  else if c = '>' then "&gt;".data
  else [c]

/-- Text-content escaping performed by `ElementTree.write`. -/
def xmlEscapeText (s : List Char) : List Char :=
  (s.map xmlEscapeTextChar).flatten

/-- Entity resolution of a standard XML parser, restricted to the entities
this program can emit (the five predefined names and the numeric forms of
the apostrophe). -/
def xmlUnescape : List Char → List Char
  | [] => []
  | '&' :: 'a' :: 'm' :: 'p' :: ';' :: rest => '&' :: xmlUnescape rest
  | '&' :: 'l' :: 't' :: ';' :: rest => '<' :: xmlUnescape rest
  | '&' :: 'g' :: 't' :: ';' :: rest => '>' :: xmlUnescape rest
  | '&' :: 'q' :: 'u' :: 'o' :: 't' :: ';' :: rest => '"' :: xmlUnescape rest
  | '&' :: 'a' :: 'p' :: 'o' :: 's' :: ';' :: rest => '\'' :: xmlUnescape rest
  | '&' :: '#' :: 'x' :: '2' :: '7' :: ';' :: rest => '\'' :: xmlUnescape rest
  | '&' :: '#' :: '3' :: '9' :: ';' :: rest => '\'' :: xmlUnescape rest
  | c :: rest => c :: xmlUnescape rest

/-- Channel/item text fields pass through `html.escape` when the element is
built (`AudiothekProgramSet.toXML` line 68, `AudiothekItem.toXML`), are
escaped a second time by `ElementTree.write` inside `writeRSS`, and a
consumer's XML parser then resolves entities once. -/
def channelTextRoundTrip (text : List Char) : List Char :=
  xmlUnescape (xmlEscapeText (htmlEscape text))

/-- Python `s.replace(old, new)` for a non-empty `old`, all non-overlapping
occurrences left to right; the first argument is fuel (`s.length` steps
always suffice because each step drops at least one character). -/
def replaceSubAux (pat rep : List Char) : Nat → List Char → List Char
  | 0, s => s
  | _ + 1, [] => []
  | fuel + 1, c :: rest =>
    if pat ≠ [] ∧ isPre pat (c :: rest) then
      rep ++ replaceSubAux pat rep fuel ((c :: rest).drop pat.length)
    else
      c :: replaceSubAux pat rep fuel rest

/-- Python `s.replace(old, new)` (the script only uses a non-empty `old`). -/
def replaceSub (s pat rep : List Char) : List Char :=
  replaceSubAux pat rep s.length s

/-! ## Domain model

The three entity classes of the script.  The `Item -> ProgramSet`
back-reference is read only for the parent's title when rendering item
artwork, so it is modelled by that title. -/

/-- Class `AudiothekCategory` (`id`/`title` as extracted from the
category query response; the `programSets` aggregation list is never read
by the pipeline and is omitted). -/
structure AudiothekCategory where
  id : String
  title : String
  deriving Repr, DecidableEq

/-- Class `AudiothekItem` after `__init__` has normalized its fields. -/
structure AudiothekItem where
  id : Int
  title : String
  dateTime : String
  duration : Int
  downloadUrl : Option String
  sharingUrl : String
  description : String
  synopsis : String
  valid : Bool
  imageUrl : Option String
  programSetTitle : Option String
  deriving Repr, DecidableEq

/-- Constructor `AudiothekItem.__init__`: absent duration becomes `0`,
absent publish date the empty string, `valid` records whether a download
URL is present, and a non-empty image URL has its literal `\x7bwidth\x7d`
placeholder replaced by `448`. -/
def mkAudiothekItem (id : Int) (title : String) (duration : Option Int)
    (dateTime : Option String) (downloadUrl : Option String)
    (sharingUrl : String := "") (description : String := "")
    (synopsis : String := "") (imageUrl : String := "") : AudiothekItem :=
  { id := id
    title := title
    dateTime := dateTime.getD ""
    duration := duration.getD 0
    downloadUrl := downloadUrl
    sharingUrl := if sharingUrl.length > 0 then sharingUrl else ""
    description := if description.length > 0 then description else ""
    synopsis := if synopsis.length > 0 then synopsis else ""
    valid := downloadUrl.isSome
    imageUrl :=
      if imageUrl.length > 0 then
        some (String.mk (replaceSub imageUrl.data "\x7bwidth\x7d".data "448".data))
      else none
    programSetTitle := none }

/-- Class `AudiothekProgramSet`. -/
structure AudiothekProgramSet where
  id : Int
  title : String
  sharingUrl : String
  description : String
  synopsis : String
  rssPath : Option String
  audiothekPath : Option String
  imageUrl : Option String
  items : List AudiothekItem
  deriving Repr, DecidableEq

/-- Constructor `AudiothekProgramSet.__init__`: an empty `imageUrl`
argument is stored as the absent marker `None`. -/
def mkAudiothekProgramSet (id : Int) (title : String) (sharingUrl : String := "")
    (description : String := "") (synopsis : String := "")
    (imageUrl : String := "") : AudiothekProgramSet :=
  { id := id
    title := title
    sharingUrl := sharingUrl
    description := description
    synopsis := synopsis
    rssPath := none
    audiothekPath := none
    imageUrl := if imageUrl.length > 0 then some imageUrl else none
    items := [] }

/-- Method `AudiothekProgramSet.hasItems`. -/
def AudiothekProgramSet.hasItems (ps : AudiothekProgramSet) : Bool :=
  ps.items.length > 0

/-- Method `AudiothekProgramSet.addItems`: appends the items and points
their back-references at the parent (modelled by the parent title). -/
def AudiothekProgramSet.addItems (ps : AudiothekProgramSet)
    (newItems : List AudiothekItem) : AudiothekProgramSet :=
  { ps with items := ps.items ++ newItems.map (fun i => { i with programSetTitle := some ps.title }) }

/-! ## XML model

`xml.etree.ElementTree` elements: a tag, attributes in insertion order,
optional text, children in insertion order. -/

/-- An ElementTree element. -/
inductive XmlNode where
  | elem (tag : String) (attrs : List (String × String)) (text : Option (List Char))
      (children : List XmlNode)

/-- Tag of an element. -/
def XmlNode.tag : XmlNode → String
  | .elem t _ _ _ => t

/-- Children of an element. -/
def XmlNode.children : XmlNode → List XmlNode
  | .elem _ _ _ c => c

/-- Number of direct children carrying a given tag. -/
def countTag (tag : String) (ns : List XmlNode) : Nat :=
  (ns.filter (fun n => n.tag == tag)).length

/-- Method `AudiothekItem.toXML` (lines 106-138).  The enclosure/media URL
attributes read `self.downloadUrl`, which is a string on every `valid`
item; the absent case is rendered by its `getD` default. -/
def AudiothekItem.toXML (item : AudiothekItem) : XmlNode :=
  .elem "item" [] none (
    [ .elem "title" [] (some (htmlEscape item.title.data)) []
    , .elem "description" [] (some (htmlEscape item.synopsis.data)) []
    , .elem "guid" [] (some item.sharingUrl.data) []
    , .elem "link" [] (some item.sharingUrl.data) []
    , .elem "enclosure"
        [("url", item.downloadUrl.getD ""), ("length", ""), ("type", "audio/mpeg")] none []
    , .elem "media:content"
        [("url", item.downloadUrl.getD ""), ("medium", "audio"), ("type", "audio/mpeg"),
         ("duration", String.mk (intRepr item.duration))] none []
    , .elem "pubDate" [] (some item.dateTime.data) []
    , .elem "itunes:duration" [] (some (intRepr item.duration)) [] ]
    ++ (match item.imageUrl with
        | some iu =>
          [ .elem "image" [] none (
              [ .elem "url" [] (some (htmlEscape iu.data)) [] ]
              ++ [ .elem "title" []
                    (match item.programSetTitle with
                     | some pt => some (htmlEscape pt.data)
                     | none => none) [] ])
          , .elem "itunes:image" [("href", String.mk (htmlEscape iu.data))] none [] ]
        | none => []))

/-- Method `AudiothekProgramSet.toXML` (lines 65-89): the channel element;
items whose `valid` flag is unset are skipped. -/
def AudiothekProgramSet.toXML (ps : AudiothekProgramSet) : XmlNode :=
  .elem "channel" [] none (
    [ .elem "title" [] (some (htmlEscape ps.title.data)) []
    , .elem "link" [] (some ps.sharingUrl.data) [] ]
    ++ (match ps.imageUrl with
        | some iu =>
          [ .elem "image" [] none (
              [ .elem "url" [] (some (htmlEscape iu.data)) []
              , .elem "title" [] (some (htmlEscape ps.title.data)) [] ]
              ++ (match ps.audiothekPath with
                  | some p => [ .elem "link" [] (some ("https://www.ardaudiothek.de".data ++ p.data)) [] ]
                  | none => [])) ]
        | none => [])
    ++ [ .elem "description" [] (some (htmlEscape ps.synopsis.data)) []
       , .elem "atom:link"
           [("href", "ardaudiothek.html"), ("rel", "self"), ("type", "application/rss+xml")]
           none [] ]
    ++ (ps.items.filter (fun i => i.valid)).map AudiothekItem.toXML)

/-! ## Remote API environment

The network gateway is an external collaborator; an `ApiEnv` supplies the
response data a run would receive.  The categories response keeps its JSON
`data` envelope as an association list keyed by top-level field name,
because `getCategories` reads that envelope under a fixed key. -/

/-- Contents of one `node` of a category query response. -/
structure CatNode where
  id : String
  title : String
  deriving Repr, DecidableEq

/-- Contents of one `node` of a `programSets` / `programSetsByIds` response. -/
structure PsNode where
  id : Int
  title : String
  sharingUrl : String
  description : String
  synopsis : String
  deriving Repr, DecidableEq

/-- Contents of one entry of `audios` in an episode response. -/
structure AudioNode where
  url : Option String
  downloadUrl : Option String
  mimeType : String
  deriving Repr, DecidableEq

/-- Contents of one episode `node` in a `programSet` response. -/
structure EpisodeNode where
  title : String
  summary : String
  synopsis : String
  sharingUrl : String
  publicationStartDateAndTime : Option String
  duration : Option Int
  imageUrl1X1 : String
  audios : List AudioNode
  deriving Repr, DecidableEq

/-- Payload of a `programSet(id:...)` episode response. -/
structure EpisodeData where
  title : String
  path : String
  synopsis : String
  sharingUrl : String
  imageUrl1X1 : Option String
  items : List EpisodeNode
  deriving Repr, DecidableEq

/-- Responses the remote endpoint would return during one run. -/
structure ApiEnv where
  categoriesData : List (List Char × List CatNode)
  totalCount : Nat
  page : Nat → List PsNode
  byIdNodes : List PsNode
  episodeData : Int → EpisodeData

/-- Exceptions the embedded fragments can raise. -/
inductive PyErr where
  | typeError
  | keyError
  | indexError
  deriving Repr, DecidableEq

/-- A network request issued during a run (query builder output). -/
inductive IssuedQuery where
  | categories (q : List Char)
  | programSetsPage (filter : List Char) (offset : Nat)
  | programSetsByIds (ids : List Int)
  deriving Repr, DecidableEq

/-- Offsets of the `programSets` page requests in a query log. -/
def pageOffsets (log : List IssuedQuery) : List Nat :=
  log.filterMap (fun q => match q with
    | .programSetsPage _ o => some o
    | _ => none)

/-- Number of category queries in a query log. -/
def countCategoryQueries (log : List IssuedQuery) : Nat :=
  (log.filter (fun q => match q with
    | .categories _ => true
    | _ => false)).length

/-- Python `",".join('"%s"' % str(x) for x in ids)` over string ids. -/
def joinQuotedStr (ids : List String) : List Char :=
  List.intercalate [','] (ids.map (fun i => '"' :: (i.data ++ ['"'])))

/-- Python `",".join('"%s"' % str(x) for x in ids)` over int ids. -/
def joinQuotedInt (ids : List Int) : List Char :=
  List.intercalate [','] (ids.map (fun i => '"' :: (intRepr i ++ ['"'])))

/-- Key lookup in a JSON `data` envelope; `none` models a `KeyError`. -/
def lookupEnv {α : Type} (key : List Char) : List (List Char × α) → Option α
  | [] => none
  | (k, v) :: rest => if k == key then some v else lookupEnv key rest

/-- Parsed command-line options as `getOptions` returns them
(`pagination` is used as a non-negative page size; the claims under
verification all assume a positive one). -/
structure Options where
  categoryID : Option (List Int)
  categorySearch : Option String
  programID : Option (List Int)
  programSearch : Option String
  maxPrograms : Option Int
  pagination : Nat
  latest : Int
  html : Bool
  outputDir : String
  output : String

/-! ## Query builders and fetchers -/

/-- Top-level field name a query fragment requests: the characters before
the argument list; a compliant server answers under this key in the `data`
envelope. -/
def topField (q : List Char) : List Char :=
  q.takeWhile (fun c => c != '(')

/-- Query built by `getCategories` (lines 150-156): by explicit ids when
`categoryID` is set, otherwise by search term; `none` when neither
selector is given (no query is issued at all). -/
def categoriesQuery (opts : Options) : Option (List Char) :=
  if opts.categoryID = none ∧ opts.categorySearch = none then none
  else if opts.categoryID ≠ none then
    pyFormatChars
      "editorialCategoriesByIDs(ids:[%s])\x7bedges\x7bnode\x7btitle, id\x7d\x7d\x7d".data
      [.str (joinQuotedInt ((opts.categoryID).getD []))]
  else
    match pyFormatChars "(filter:\x7btitle:\x7bincludes:\x22%s\x22\x7d\x7d)".data
        [.str ((opts.categorySearch).getD "").data] with
    | none => none
    | some filter =>
      pyFormatChars "editorialCategories%s\x7bedges\x7bnode\x7btitle, id\x7d\x7d\x7d".data
        [.str filter]

/-- Function `getCategories` (lines 148-160): short-circuits when no
selector is given, otherwise issues the query and reads the response
envelope under the key `editorialCategories`. -/
def getCategories (env : ApiEnv) (opts : Options) :
    Except PyErr (List AudiothekCategory × List IssuedQuery) :=
  if opts.categoryID = none ∧ opts.categorySearch = none then .ok ([], [])
  else
    match categoriesQuery opts with
    | none => .error .typeError
    | some q =>
      match lookupEnv "editorialCategories".data env.categoriesData with
      | none => .error .keyError
      | some edges =>
        .ok (edges.map (fun n => { id := n.id, title := n.title }), [.categories q])

/-- Filter fragments built at the top of `getProgramSets` (lines 164-169):
the category clause comes from the placeholder-less format template of
line 167, the title clause from the `likeInsensitive` template of
line 169. -/
def buildFilters (opts : Options) (categoryIDs : List String) :
    Except PyErr (List (List Char)) := do
  let catFilters : List (List Char) ←
    if categoryIDs.length > 0 then
      match pyFormatChars "editorialCategoryId:\x7bin:[]\x7d".data
          [.str (joinQuotedStr categoryIDs)] with
      | none => .error .typeError
      | some f => .ok [f]
    else .ok []
  let titleFilters : List (List Char) ←
    match opts.programSearch with
    | some term =>
      match pyFormatChars "title:\x7blikeInsensitive:\x22%%%s%%\x22\x7d".data
          [.str term.data] with
      | none => .error .typeError
      | some f => .ok [f]
    | none => .ok []
  .ok (catFilters ++ titleFilters)

/-- Combined filter clause (lines 170-172). -/
def filterClause (filters : List (List Char)) : List Char :=
  if filters.length > 0 then
    "filter:\x7b".data ++ List.intercalate [','] filters ++ "\x7d,".data
  else []

/-- Page loop of `getProgramSets` (lines 173-182): `tcOpt = none` renders
the initial sentinel `totalCount = -1`; the loop proceeds while the total
is unknown or `offset + pagination <= totalCount`, learns the total from
the first page, collects the page's nodes, and advances the offset by the
page size.  The first argument is fuel: `totalCount + 1` iterations always
suffice when the page size is positive. -/
def psLoop (env : ApiEnv) (p : Nat) : Nat → Option Nat → Nat → List PsNode × List Nat
  | 0, _, _ => ([], [])
  | fuel + 1, tcOpt, offset =>
    let proceed : Bool :=
      match tcOpt with
      | none => true
      | some tc => decide (offset + p ≤ tc)
    if proceed then
      let tc :=
        match tcOpt with
        | none => env.totalCount
        | some tc => tc
      let rest := psLoop env p fuel (some tc) (offset + p)
      (env.page offset ++ rest.1, offset :: rest.2)
    else ([], [])

/-- Function `getProgramSets` (lines 162-183): builds the filter clause,
then pages through `programSets` results. -/
def getProgramSets (env : ApiEnv) (opts : Options) (categoryIDs : List String) :
    Except PyErr (List AudiothekProgramSet × List IssuedQuery) := do
  let filters ← buildFilters opts categoryIDs
  let f := filterClause filters
  let (nodes, offsets) := psLoop env opts.pagination (env.totalCount + 1) none 0
  .ok (nodes.map (fun n =>
        mkAudiothekProgramSet n.id n.title n.sharingUrl n.description n.synopsis),
      offsets.map (fun o => .programSetsPage f o))

/-- Function `getProgramSetsByID` (lines 185-192): a single
`programSetsByIds` query for the explicit id list. -/
def getProgramSetsByID (env : ApiEnv) (opts : Options) :
    Except PyErr (List AudiothekProgramSet × List IssuedQuery) :=
  match pyFormatChars
      "programSetsByIds(ids:[%s])\x7bnodes\x7btitle, id, sharingUrl, description, synopsis\x7d\x7d".data
      [.str (joinQuotedInt ((opts.programID).getD []))] with
  | none => .error .typeError
  | some _q =>
    .ok ((env.byIdNodes).map (fun n =>
          mkAudiothekProgramSet n.id n.title n.sharingUrl n.description n.synopsis),
        [.programSetsByIds ((opts.programID).getD [])])

/-- Function `queryContent` (lines 199-210): an explicit program-id list
takes the `programSetsByIds` path, otherwise categories are resolved and
`getProgramSets` pages through the filtered listing. -/
def queryContent (env : ApiEnv) (opts : Options) :
    Except PyErr (List AudiothekProgramSet × List IssuedQuery) :=
  match opts.programID with
  | some _ => getProgramSetsByID env opts
  | none => do
    let (cats, catLog) ← getCategories env opts
    let (sets, pageLog) ← getProgramSets env opts (cats.map (fun c => c.id))
    .ok (sets, catLog ++ pageLog)

/-- Method `AudiothekProgramSet.queryEpisodes` (lines 55-63): issues the
episode query, builds the items (`audios[0]` raises `IndexError` on an
empty list), appends them, and overwrites `imageUrl` and `audiothekPath`
from the per-program response.  `options` only shapes the query string
(the `latest` episode count is enforced server-side), so the response in
`env` is read per program id. -/
def queryEpisodes (env : ApiEnv) (_opts : Options) (ps : AudiothekProgramSet) :
    Except PyErr AudiothekProgramSet := do
  let episodes ← (env.episodeData ps.id).items.mapM (fun item => do
    let audio0 ←
      match item.audios.head? with
      | none => Except.error PyErr.indexError
      | some a => Except.ok a
    Except.ok (mkAudiothekItem 0 item.title item.duration
      item.publicationStartDateAndTime audio0.url item.sharingUrl item.summary
      item.synopsis item.imageUrl1X1))
  let ps := ps.addItems episodes
  .ok { ps with
        imageUrl := (env.episodeData ps.id).imageUrl1X1,
        audiothekPath := some (env.episodeData ps.id).path }

/-- Output file name as `main` computes it (line 234):
`options.output % ("", int(programSet.id))`. -/
def outputFileName (output : List Char) (programId : Int) : Option (List Char) :=
  pyFormatChars output [.str [], .int programId]

/-- Processing loop of `main` (lines 222-247): each candidate gets an
episode query (logged by program id); a candidate with items produces an
output file named through the template; the counter advances on every
candidate and the loop stops once it reaches a positive limit. -/
def mainLoop (env : ApiEnv) (opts : Options) (limit : Int) :
    List AudiothekProgramSet → Int → Except PyErr (List Int × List (List Char))
  | [], _ => .ok ([], [])
  | ps :: rest, count => do
    let ps' ← queryEpisodes env opts ps
    let files ←
      if ps'.hasItems then
        match outputFileName opts.output.data ps.id with
        | none => Except.error PyErr.typeError
        | some name => Except.ok [name]
      else Except.ok ([] : List (List Char))
    let count' := count + 1
    if limit > 0 ∧ count' = limit then
      .ok ([ps.id], files)
    else do
      let (log, moreFiles) ← mainLoop env opts limit rest count'
      .ok (ps.id :: log, files ++ moreFiles)

/-- Processing phase of `main`: the limit is `-1` when no maximum is
configured (line 222), the counter starts at zero. -/
def mainProcess (env : ApiEnv) (opts : Options)
    (programSets : List AudiothekProgramSet) :
    Except PyErr (List Int × List (List Char)) :=
  mainLoop env opts
    (match opts.maxPrograms with
     | none => -1
     | some m => m)
    programSets 0

/-! ## Helper lemmas on the query builders -/

/-- Episode-item construction step of `queryEpisodes` isolated so results
about the surrounding method can case on it. -/
def buildEpisodeItems (data : EpisodeData) : Except PyErr (List AudiothekItem) :=
  data.items.mapM (fun item => do
    let audio0 ←
      match item.audios.head? with
      | none => Except.error PyErr.indexError
      | some a => Except.ok a
    Except.ok (mkAudiothekItem 0 item.title item.duration
      item.publicationStartDateAndTime audio0.url item.sharingUrl item.summary
      item.synopsis item.imageUrl1X1))

lemma queryEpisodes_err (env : ApiEnv) (opts : Options) (ps : AudiothekProgramSet)
    (e : PyErr) (h : buildEpisodeItems (env.episodeData ps.id) = .error e) :
    queryEpisodes env opts ps = .error e := by
  have hq : queryEpisodes env opts ps
      = (buildEpisodeItems (env.episodeData ps.id)).bind (fun episodes =>
          Except.ok { ps.addItems episodes with
            imageUrl := (env.episodeData ps.id).imageUrl1X1,
            audiothekPath := some (env.episodeData ps.id).path }) := rfl
  rw [hq, h]
  rfl

lemma queryEpisodes_ok (env : ApiEnv) (opts : Options) (ps : AudiothekProgramSet)
    (eps : List AudiothekItem) (h : buildEpisodeItems (env.episodeData ps.id) = .ok eps) :
    queryEpisodes env opts ps = .ok { ps.addItems eps with
      imageUrl := (env.episodeData ps.id).imageUrl1X1,
      audiothekPath := some (env.episodeData ps.id).path } := by
  have hq : queryEpisodes env opts ps
      = (buildEpisodeItems (env.episodeData ps.id)).bind (fun episodes =>
          Except.ok { ps.addItems episodes with
            imageUrl := (env.episodeData ps.id).imageUrl1X1,
            audiothekPath := some (env.episodeData ps.id).path }) := rfl
  rw [hq, h]
  rfl

lemma catByIds_fmt (j : List Char) :
    pyFormatChars
      "editorialCategoriesByIDs(ids:[%s])\x7bedges\x7bnode\x7btitle, id\x7d\x7d\x7d".data
      [.str j]
    = some ("editorialCategoriesByIDs(ids:[".data ++ j
        ++ "])\x7bedges\x7bnode\x7btitle, id\x7d\x7d\x7d".data) := rfl

lemma psByIds_fmt (j : List Char) :
    pyFormatChars
      "programSetsByIds(ids:[%s])\x7bnodes\x7btitle, id, sharingUrl, description, synopsis\x7d\x7d".data
      [.str j]
    = some ("programSetsByIds(ids:[".data ++ j
        ++ "])\x7bnodes\x7btitle, id, sharingUrl, description, synopsis\x7d\x7d".data) := rfl

lemma topField_catByIds (j tail : List Char) :
    topField ("editorialCategoriesByIDs(ids:[".data ++ j ++ tail)
    = "editorialCategoriesByIDs".data := rfl

/-! ## Claim theorems -/

/-- C2 (code bug): a channel or item title containing `&` does not survive
the serialize-then-parse round trip: the text is `html.escape`d when the
element is built and escaped a second time by `ElementTree.write`, so a
standard XML parser recovers the escaped text, not the original. -/
theorem escaping_roundtrip_broken :
    channelTextRoundTrip "Tom & Jerry".data = "Tom &amp; Jerry".data ∧
    channelTextRoundTrip "Tom & Jerry".data ≠ "Tom & Jerry".data := by
  constructor
  · decide
  · decide

/-- C3 (code bug): whenever a non-empty category-id list reaches
`getProgramSets`, the category filter is built by applying `%` to the
template `editorialCategoryId:\x7bin:[]\x7d`, which has no placeholder, so
Python raises `TypeError` and no program-set query is ever issued. -/
theorem category_filter_build_raises (env : ApiEnv) (opts : Options)
    (categoryIDs : List String) (h : categoryIDs ≠ []) :
    getProgramSets env opts categoryIDs = Except.error PyErr.typeError := by
  cases categoryIDs with
  | nil => exact absurd rfl h
  | cons a as =>
    have hnone : pyFormatChars "editorialCategoryId:\x7bin:[]\x7d".data
        [.str (joinQuotedStr (a :: as))] = none := rfl
    simp only [getProgramSets, buildFilters, hnone]
    rw [if_pos (by simp : (a :: as).length > 0)]
    rfl

/-- C3 witness: with one resolved category the fetch raises. -/
theorem category_filter_build_raises_witness :
    (["42"] : List String) ≠ [] ∧
    getProgramSets
      { categoriesData := [], totalCount := 0, page := fun _ => [], byIdNodes := [],
        episodeData := fun _ =>
          { title := "", path := "", synopsis := "", sharingUrl := "",
            imageUrl1X1 := none, items := [] } }
      { categoryID := none, categorySearch := none, programID := none,
        programSearch := none, maxPrograms := none, pagination := 100,
        latest := 10, html := false, outputDir := "rss",
        output := "ardaudiothek_%s%d.rss" }
      ["42"] = Except.error PyErr.typeError := by
  refine ⟨by decide, category_filter_build_raises _ _ ["42"] (by decide)⟩

/-- Default command-line options (all selectors unset). -/
def optsDefault : Options :=
  { categoryID := none, categorySearch := none, programID := none,
    programSearch := none, maxPrograms := none, pagination := 100,
    latest := 10, html := false, outputDir := "rss",
    output := "ardaudiothek_%s%d.rss" }

/-- Environment whose episode response carries an empty `url1X1` string. -/
def envC4 : ApiEnv :=
  { categoriesData := [], totalCount := 0, page := fun _ => [], byIdNodes := [],
    episodeData := fun _ =>
      { title := "t", path := "/p", synopsis := "s", sharingUrl := "u",
        imageUrl1X1 := some "", items := [] } }

/-- C4 counterexample: `queryEpisodes` stores the response's `url1X1`
verbatim (line 62), so a response carrying the empty string leaves
`imageUrl` as an empty string stored as a value, not the absent marker. -/
theorem imageUrl_empty_after_queryEpisodes :
    (queryEpisodes envC4 optsDefault (mkAudiothekProgramSet 7 "Show")).map
      (fun ps => ps.imageUrl) = Except.ok (some "") := rfl

/-- C4 (amended): after construction `imageUrl` is never the empty string
stored as a value, and the episode-query mutation stores the response's
`url1X1` field verbatim — so the invariant holds after the mutation only
when the response never carries an empty string. -/
theorem imageUrl_invariant_amended :
    (∀ (id : Int) (title sharingUrl description synopsis imageUrl : String),
      (mkAudiothekProgramSet id title sharingUrl description synopsis
        imageUrl).imageUrl ≠ some "") ∧
    (∀ (env : ApiEnv) (opts : Options) (ps ps' : AudiothekProgramSet),
      queryEpisodes env opts ps = .ok ps' →
      ps'.imageUrl = (env.episodeData ps.id).imageUrl1X1) := by
  constructor
  · intro id title su de sy iu hEq
    simp only [mkAudiothekProgramSet] at hEq
    by_cases hlen : iu.length > 0
    · rw [if_pos hlen] at hEq
      injection hEq with hEq
      subst hEq
      simp at hlen
    · rw [if_neg hlen] at hEq
      cases hEq
  · intro env opts ps ps' h
    cases hb : buildEpisodeItems (env.episodeData ps.id) with
    | error e =>
      rw [queryEpisodes_err env opts ps e hb] at h
      cases h
    | ok eps =>
      rw [queryEpisodes_ok env opts ps eps hb] at h
      injection h with h
      subst h
      rfl

/-- Program set resulting from `queryEpisodes` in the witness run. -/
def psAfterC4 : AudiothekProgramSet :=
  { id := 7, title := "Show", sharingUrl := "", description := "",
    synopsis := "", rssPath := none, audiothekPath := some "/p",
    imageUrl := some "", items := [] }

/-- C4 witness: the amended statement applied to a concrete run. -/
theorem imageUrl_invariant_amended_witness :
    queryEpisodes envC4 optsDefault (mkAudiothekProgramSet 7 "Show")
      = Except.ok psAfterC4 ∧
    psAfterC4.imageUrl
      = (envC4.episodeData (mkAudiothekProgramSet 7 "Show").id).imageUrl1X1 :=
  ⟨rfl, imageUrl_invariant_amended.2 envC4 optsDefault
    (mkAudiothekProgramSet 7 "Show") psAfterC4 rfl⟩

/-- C6: with an explicit program-id list, `queryContent` runs only the
`programSetsByIds` path — a single by-ids query — and the category path
issues zero queries. -/
theorem programID_precedence (env : ApiEnv) (opts : Options) (ids : List Int)
    (h : opts.programID = some ids) :
    queryContent env opts
      = Except.ok ((env.byIdNodes).map (fun n =>
          mkAudiothekProgramSet n.id n.title n.sharingUrl n.description n.synopsis),
        [IssuedQuery.programSetsByIds ids]) ∧
    countCategoryQueries [IssuedQuery.programSetsByIds ids] = 0 := by
  refine ⟨?_, rfl⟩
  simp only [queryContent, h, getProgramSetsByID, Option.getD]
  rfl

/-- Options supplying both a program-id list and a category selector. -/
def optsC6 : Options := { optsDefault with programID := some [3], categoryID := some [5] }

/-- C6 witness: the precedence statement applied to a run configured with
both a program-id list and a category selector. -/
theorem programID_precedence_witness :
    optsC6.programID = some [3] ∧
    queryContent envC4 optsC6
      = Except.ok ([], [IssuedQuery.programSetsByIds [3]]) ∧
    countCategoryQueries [IssuedQuery.programSetsByIds [3]] = 0 :=
  ⟨rfl,
   (programID_precedence envC4 optsC6 [3] rfl).1,
   (programID_precedence envC4 optsC6 [3] rfl).2⟩

lemma tag_elem (t : String) (a : List (String × String)) (x : Option (List Char))
    (c : List XmlNode) : XmlNode.tag (.elem t a x c) = t := rfl

lemma itemToXML_tag (i : AudiothekItem) : (AudiothekItem.toXML i).tag = "item" := rfl

lemma filter_item_map (l : List AudiothekItem) :
    (l.map AudiothekItem.toXML).filter (fun n => n.tag == "item")
      = l.map AudiothekItem.toXML := by
  induction l with
  | nil => rfl
  | cons i rest ih => simp [List.filter_cons, itemToXML_tag, ih]

/-- C5: an item is valid exactly when it has a download URL, and the
serialized channel holds one item element per valid item — an item whose
download URL is absent is skipped by serialization while remaining in the
parent's `items` list (whose length the right-hand side filters). -/
theorem item_validity_filter :
    (∀ (id : Int) (title : String) (duration : Option Int)
        (dateTime : Option String) (downloadUrl : Option String)
        (sharingUrl description synopsis imageUrl : String),
      ((mkAudiothekItem id title duration dateTime downloadUrl sharingUrl
          description synopsis imageUrl).valid = true) ↔ downloadUrl ≠ none) ∧
    (∀ ps : AudiothekProgramSet,
      countTag "item" ps.toXML.children
        = (ps.items.filter (fun i => i.valid)).length) := by
  constructor
  · intro id title dur dt dl su de sy iu
    simp only [mkAudiothekItem]
    cases dl <;> simp
  · intro ps
    cases hiu : ps.imageUrl with
    | none =>
      simp [AudiothekProgramSet.toXML, XmlNode.children, countTag, hiu,
        List.filter_append, filter_item_map, tag_elem, List.filter_cons]
    | some iu =>
      cases hap : ps.audiothekPath with
      | none =>
        simp [AudiothekProgramSet.toXML, XmlNode.children, countTag, hiu, hap,
          List.filter_append, filter_item_map, tag_elem, List.filter_cons]
      | some p =>
        simp [AudiothekProgramSet.toXML, XmlNode.children, countTag, hiu, hap,
          List.filter_append, filter_item_map, tag_elem, List.filter_cons]

/-- C10: `getCategories` with an explicit category-id list requests the
field `editorialCategoriesByIDs` but reads the envelope under the key
`editorialCategories`; on any response shaped after the requested field
the lookup misses and the extraction raises a key error. -/
theorem categories_byid_key_mismatch (env : ApiEnv) (opts : Options)
    (ids : List Int) (q : List Char)
    (hid : opts.categoryID = some ids)
    (hq : categoriesQuery opts = some q)
    (henv : env.categoriesData.map Prod.fst = [topField q]) :
    getCategories env opts = Except.error PyErr.keyError := by
  have hnotboth : ¬(opts.categoryID = none ∧ opts.categorySearch = none) := by
    rw [hid]
    simp
  have hqv : q = "editorialCategoriesByIDs(ids:[".data ++ joinQuotedInt ids
      ++ "])\x7bedges\x7bnode\x7btitle, id\x7d\x7d\x7d".data := by
    rw [categoriesQuery, if_neg hnotboth, if_pos (by rw [hid]; simp), hid] at hq
    simp only [Option.getD, catByIds_fmt] at hq
    injection hq with hq
    exact hq.symm
  have htf : topField q = "editorialCategoriesByIDs".data := by
    rw [hqv]
    exact topField_catByIds _ _
  rw [htf] at henv
  cases henvd : env.categoriesData with
  | nil =>
    rw [henvd] at henv
    cases henv
  | cons kv rest =>
    obtain ⟨k, v⟩ := kv
    rw [henvd] at henv
    simp only [List.map_cons, List.cons.injEq] at henv
    obtain ⟨hk, hrest⟩ := henv
    have hrest' : rest = [] := List.map_eq_nil_iff.mp hrest
    have hkey : (k == "editorialCategories".data) = false := by
      rw [hk]
      decide
    simp only [getCategories, if_neg hnotboth, hq, henvd, hrest', lookupEnv, hkey]
    rfl

/-- Options selecting categories by explicit id. -/
def optsC10 : Options := { optsDefault with categoryID := some [7] }

/-- Query `getCategories` builds for `optsC10`. -/
def qC10 : List Char := (categoriesQuery optsC10).getD []

/-- Environment answering under the requested field name. -/
def envC10 : ApiEnv :=
  { categoriesData := [("editorialCategoriesByIDs".data, [])], totalCount := 0,
    page := fun _ => [], byIdNodes := [],
    episodeData := fun _ =>
      { title := "", path := "", synopsis := "", sharingUrl := "",
        imageUrl1X1 := none, items := [] } }

/-- C10 witness: the key-mismatch statement applied to a concrete run. -/
theorem categories_byid_key_mismatch_witness :
    optsC10.categoryID = some [7] ∧
    categoriesQuery optsC10 = some qC10 ∧
    envC10.categoriesData.map Prod.fst = [topField qC10] ∧
    getCategories envC10 optsC10 = Except.error PyErr.keyError :=
  ⟨rfl, rfl, rfl,
   categories_byid_key_mismatch envC10 optsC10 [7] qC10 rfl rfl rfl⟩

/-! ## rfind characterization -/

lemma rfind_ge_neg_one (s : List Char) (c : Char) : -1 ≤ rfind s c := by
  induction s with
  | nil => simp [rfind]
  | cons x xs ih =>
    simp only [rfind]
    split
    · omega
    · split <;> omega

lemma rfind_eq_neg_one_iff (s : List Char) (c : Char) : rfind s c = -1 ↔ c ∉ s := by
  induction s with
  | nil => simp [rfind]
  | cons x xs ih =>
    simp only [rfind]
    by_cases hr : rfind xs c ≥ 0
    · rw [if_pos hr]
      constructor
      · intro h
        omega
      · intro h
        have hxs : rfind xs c = -1 := ih.mpr (fun hm => h (List.mem_cons_of_mem x hm))
        omega
    · have hxs : rfind xs c = -1 := by
        have := rfind_ge_neg_one xs c
        omega
      have hcnot : c ∉ xs := ih.mp hxs
      rw [if_neg hr]
      by_cases hx : x = c
      · subst hx
        simp [hcnot]
      · have hxb : (x == c) = false := by simp [hx]
        simp [hxb, hx, hcnot, List.mem_cons, Ne.symm hx]

lemma rfind_last (s : List Char) (c : Char) :
    ∀ (i : Nat) (hi : i < s.length), s.get ⟨i, hi⟩ = c →
      (∀ (k : Nat) (hk : k < s.length), i < k → s.get ⟨k, hk⟩ ≠ c) →
      rfind s c = (i : Int) := by
  induction s with
  | nil =>
    intro i hi
    simp at hi
  | cons x xs ih =>
    intro i hi hc hlast
    cases i with
    | zero =>
      have hx : x = c := hc
      have hnot : c ∉ xs := by
        intro hmem
        obtain ⟨⟨j, hj⟩, hje⟩ := List.mem_iff_get.mp hmem
        exact hlast (j + 1) (by simpa using Nat.succ_lt_succ hj)
          (Nat.succ_pos j) (by simpa using hje)
      have hxs : rfind xs c = -1 := (rfind_eq_neg_one_iff xs c).mpr hnot
      simp only [rfind, hxs]
      rw [if_neg (by omega)]
      simp [hx]
    | succ j =>
      have hj : j < xs.length := by
        simpa using Nat.lt_of_succ_lt_succ hi
      have hgc : xs.get ⟨j, hj⟩ = c := by
        simpa using hc
      have hl : ∀ (k : Nat) (hk : k < xs.length), j < k → xs.get ⟨k, hk⟩ ≠ c := by
        intro k hk hjk
        have := hlast (k + 1) (by simpa using Nat.succ_lt_succ hk) (by omega)
        simpa using this
      have hr := ih j hj hgc hl
      simp only [rfind, hr]
      rw [if_pos (by omega)]
      omega

/-- C8: a template already containing `%d` is left unchanged; otherwise the
validation inserts `%d` immediately before the last dot, or appends it when
the template has no dot. -/
theorem output_template_correction :
    (∀ t : List Char, hasSub ['%', 'd'] t = true → correctOutputTemplate t = t) ∧
    (∀ t : List Char, hasSub ['%', 'd'] t = false →
      (('.' ∉ t) → correctOutputTemplate t = t ++ ['%', 'd']) ∧
      (∀ (i : Nat) (hi : i < t.length), t.get ⟨i, hi⟩ = '.' →
        (∀ (k : Nat) (hk : k < t.length), i < k → t.get ⟨k, hk⟩ ≠ '.') →
        correctOutputTemplate t = t.take i ++ ['%', 'd'] ++ t.drop i)) := by
  constructor
  · intro t h
    simp [correctOutputTemplate, h]
  · intro t h
    constructor
    · intro hdot
      have h1 : rfind t '.' = -1 := (rfind_eq_neg_one_iff t '.').mpr hdot
      simp [correctOutputTemplate, h, h1]
    · intro i hi hc hlast
      have h2 : rfind t '.' = (i : Int) := rfind_last t '.' i hi hc hlast
      simp only [correctOutputTemplate, h, Bool.false_eq_true, if_false, h2]
      rw [if_pos (by omega)]
      simp

/-- C8 witness: `show.rss` gains a `%d` before its extension and
`show_%d.rss` stays unchanged. -/
theorem output_template_correction_witness :
    hasSub ['%', 'd'] "show.rss".data = false ∧
    correctOutputTemplate "show.rss".data = "show%d.rss".data ∧
    hasSub ['%', 'd'] "show_%d.rss".data = true ∧
    correctOutputTemplate "show_%d.rss".data = "show_%d.rss".data := by
  refine ⟨by decide, ?_, by decide,
    output_template_correction.1 "show_%d.rss".data (by decide)⟩
  have h := (output_template_correction.2 "show.rss".data (by decide)).2 4
    (by decide) (by decide) (by decide)
  rw [h]
  decide

/-! ## Formatting with no string placeholder -/

lemma hasSub_tail {pat : List Char} {c : Char} {rest : List Char}
    (h : hasSub pat (c :: rest) = false) : hasSub pat rest = false := by
  simp only [hasSub, Bool.or_eq_false_iff] at h
  exact h.2

lemma pyFormat_str_head_none :
    ∀ (n : Nat) (t : List Char), t.length ≤ n → onlySimpleSpecs t = true →
      hasSub ['%', 's'] t = false →
      ∀ (a : List Char) (args : List FmtArg),
        pyFormatChars t (.str a :: args) = none := by
  intro n
  induction n with
  | zero =>
    intro t ht _ _ a args
    have ht0 : t = [] := List.length_eq_zero.mp (Nat.le_zero.mp ht)
    subst ht0
    rfl
  | succ n ih =>
    intro t ht hspec hsub a args
    cases t with
    | nil => rfl
    | cons c rest =>
      by_cases hc : c = '%'
      · subst hc
        cases rest with
        | nil => simp [onlySimpleSpecs] at hspec
        | cons c2 rest2 =>
          have hspec2 : ((c2 = '%' ∨ c2 = 's') ∨ c2 = 'd') ∧ onlySimpleSpecs rest2 = true := by
            simpa [onlySimpleSpecs] using hspec
          simp only [pyFormatChars, if_pos rfl]
          by_cases h2 : c2 = '%'
          · subst h2
            have hr : hasSub ['%', 's'] rest2 = false := hasSub_tail (hasSub_tail hsub)
            have hn := ih rest2 (by simp at ht ⊢; omega) hspec2.2 hr a args
            simp [hn]
          · by_cases h3 : c2 = 's'
            · subst h3
              exfalso
              simp [hasSub, isPre] at hsub
            · have h4 : c2 = 'd' := by
                rcases hspec2.1 with (h | h) | h
                · exact absurd h h2
                · exact absurd h h3
                · exact h
              subst h4
              simp
      · have hr : hasSub ['%', 's'] rest = false := hasSub_tail hsub
        have hspecr : onlySimpleSpecs rest = true := by
          rw [onlySimpleSpecs.eq_def] at hspec
          simpa [hc] using hspec
        have hn := ih rest (by simp at ht ⊢; omega) hspecr hr a args
        rw [pyFormatChars.eq_def]
        simp [hc, hn]

/-- C9 counterexample: the template `show%r%d.rss` contains `%d` and no
`%s`, yet `"show%r%d.rss" % ("", 5)` succeeds in Python — `%r` consumes
the empty-string argument as `repr("")`, rendering two apostrophes — so a
feed file named `show''5.rss` is produced where the claim asserts a type
error. -/
theorem output_formatting_pctr_counterexample :
    hasSub ['%', 'd'] "show%r%d.rss".data = true ∧
    hasSub ['%', 's'] "show%r%d.rss".data = false ∧
    outputFileName "show%r%d.rss".data 5 = some "show''5.rss".data :=
  ⟨by decide, by decide, by decide⟩

/-- C9 (amended): filling the output template in `main` passes the pair
`("", programId)`; a template whose conversions are drawn from `%%`, `%s`
and `%d` — the grammar the default and every auto-corrected template use —
that contains `%d` but no `%s` makes the formatting raise a type error
(the `%d` conversion receives the empty string, or the string argument is
left unconverted), while the default template with both placeholders
yields a file name.  Templates using other Python conversions, such as
`%r`, can format successfully. -/
theorem output_formatting_requires_str_placeholder :
    (∀ (t : List Char) (i : Int), onlySimpleSpecs t = true →
      hasSub ['%', 'd'] t = true → hasSub ['%', 's'] t = false →
      outputFileName t i = none) ∧
    outputFileName "ardaudiothek_%s%d.rss".data 42
      = some "ardaudiothek_42.rss".data := by
  constructor
  · intro t i hspec _ hs
    exact pyFormat_str_head_none t.length t le_rfl hspec hs [] [.int i]
  · decide

/-- C9 witness: the auto-corrected template shape `show%d.rss` makes the
file-name formatting raise. -/
theorem output_formatting_requires_str_placeholder_witness :
    onlySimpleSpecs "show%d.rss".data = true ∧
    hasSub ['%', 'd'] "show%d.rss".data = true ∧
    hasSub ['%', 's'] "show%d.rss".data = false ∧
    outputFileName "show%d.rss".data 5 = none :=
  ⟨by decide, by decide, by decide,
   output_formatting_requires_str_placeholder.1 "show%d.rss".data 5
     (by decide) (by decide) (by decide)⟩

/-! ## Max-programs cap -/

lemma exists_ok_of_isOk {α : Type} {e : Except PyErr α} (h : e.isOk = true) :
    ∃ v, e = .ok v := by
  cases e with
  | error err => simp [Except.isOk, Except.toBool] at h
  | ok v => exact ⟨v, rfl⟩

lemma ebind_ok {α β : Type} (v : α) (f : α → Except PyErr β) :
    (Except.ok v : Except PyErr α) >>= f = f v := rfl

lemma mainLoop_attempts (env : ApiEnv) (opts : Options) (m : Int) (hm : 0 < m) :
    ∀ (sets : List AudiothekProgramSet) (c : Int), 0 ≤ c → c < m →
      (∀ ps ∈ sets, (queryEpisodes env opts ps).isOk = true) →
      (∀ ps ∈ sets, (outputFileName opts.output.data ps.id).isSome = true) →
      ∃ files, mainLoop env opts m sets c
        = Except.ok ((sets.take (m - c).toNat).map (fun ps => ps.id), files) := by
  intro sets
  induction sets with
  | nil =>
    intro c _ _ _ _
    exact ⟨[], by simp [mainLoop]⟩
  | cons ps rest ih =>
    intro c hc0 hcm hq hf
    obtain ⟨ps', hps'⟩ := exists_ok_of_isOk (hq ps (List.mem_cons_self ps rest))
    have hqr : ∀ x ∈ rest, (queryEpisodes env opts x).isOk = true :=
      fun x hx => hq x (List.mem_cons_of_mem ps hx)
    have hfr : ∀ x ∈ rest, (outputFileName opts.output.data x.id).isSome = true :=
      fun x hx => hf x (List.mem_cons_of_mem ps hx)
    have htake1 : (m - c).toNat = (m - (c + 1)).toNat + 1 := by omega
    by_cases hit : ps'.hasItems = true
    · obtain ⟨name, hname⟩ := Option.isSome_iff_exists.mp
        (hf ps (List.mem_cons_self ps rest))
      by_cases hstop : c + 1 = m
      · refine ⟨[name], ?_⟩
        simp only [mainLoop, hps', ebind_ok, hit, if_true, hname]
        rw [if_pos ⟨hm, hstop⟩]
        have h1 : (m - c).toNat = 1 := by omega
        simp [h1]
      · obtain ⟨files', hrest⟩ := ih (c + 1) (by omega) (by omega) hqr hfr
        refine ⟨[name] ++ files', ?_⟩
        simp only [mainLoop, hps', ebind_ok, hit, if_true, hname]
        rw [if_neg (fun hand => hstop hand.2)]
        simp only [hrest, ebind_ok]
        simp [htake1]
    · by_cases hstop : c + 1 = m
      · refine ⟨[], ?_⟩
        simp only [mainLoop, hps', ebind_ok, hit, if_false, Bool.false_eq_true]
        rw [if_pos ⟨hm, hstop⟩]
        have h1 : (m - c).toNat = 1 := by omega
        simp [h1]
      · obtain ⟨files', hrest⟩ := ih (c + 1) (by omega) (by omega) hqr hfr
        refine ⟨[] ++ files', ?_⟩
        simp only [mainLoop, hps', ebind_ok, hit, if_false, Bool.false_eq_true]
        rw [if_neg (fun hand => hstop hand.2)]
        simp only [hrest, ebind_ok]
        simp [htake1]

/-- C7: with a configured positive limit `m`, the processing loop issues
an episode query for exactly the first `min m (number of candidates)`
ProgramSets — including those that produce no output file — and stops
before querying the next one (the log lists exactly the attempted ids). -/
theorem max_programs_cap (env : ApiEnv) (opts : Options)
    (sets : List AudiothekProgramSet) (m : Int)
    (hmax : opts.maxPrograms = some m) (hm : 0 < m)
    (hq : ∀ ps ∈ sets, (queryEpisodes env opts ps).isOk = true)
    (hf : ∀ ps ∈ sets, (outputFileName opts.output.data ps.id).isSome = true) :
    ∃ files, mainProcess env opts sets
        = Except.ok ((sets.take m.toNat).map (fun ps => ps.id), files) ∧
      ((sets.take m.toNat).map (fun ps => ps.id)).length
        = min m.toNat sets.length := by
  obtain ⟨files, hrun⟩ := mainLoop_attempts env opts m hm sets 0 le_rfl hm hq hf
  refine ⟨files, ?_, by simp [List.length_take]⟩
  have hms : m - 0 = m := by omega
  rw [mainProcess, hmax]
  rw [hms] at hrun
  exact hrun

/-- Options with a max-programs cap of two. -/
def optsC7 : Options := { optsDefault with maxPrograms := some 2 }

/-- Three candidate program sets with ids 1, 2, 3. -/
def setsC7 : List AudiothekProgramSet :=
  [mkAudiothekProgramSet 1 "A", mkAudiothekProgramSet 2 "B", mkAudiothekProgramSet 3 "C"]

/-- C7 witness: with a cap of two and three candidates, exactly the first
two are attempted. -/
theorem max_programs_cap_witness :
    optsC7.maxPrograms = some 2 ∧ (0 : Int) < 2 ∧
    (∀ ps ∈ setsC7, (queryEpisodes envC4 optsC7 ps).isOk = true) ∧
    (∀ ps ∈ setsC7, (outputFileName optsC7.output.data ps.id).isSome = true) ∧
    (∃ files, mainProcess envC4 optsC7 setsC7 = Except.ok ([1, 2], files) ∧
      ([1, 2] : List Int).length = min (2 : Int).toNat setsC7.length) :=
  ⟨rfl, by decide, by decide, by decide,
   max_programs_cap envC4 optsC7 setsC7 2 rfl (by decide) (by decide) (by decide)⟩

/-! ## Pagination -/

lemma psLoop_offsets (env : ApiEnv) (p : Nat) (hp : 0 < p) (T : Nat) :
    ∀ (fuel offset : Nat), (T - offset) / p ≤ fuel →
      (psLoop env p fuel (some T) offset).2
        = (List.range ((T - offset) / p)).map (fun k => offset + k * p) := by
  intro fuel
  induction fuel with
  | zero =>
    intro offset h
    have h0 : (T - offset) / p = 0 := Nat.le_zero.mp h
    simp [psLoop, h0]
  | succ fuel ih =>
    intro offset h
    by_cases hcond : offset + p ≤ T
    · have hdiv : (T - offset) / p = (T - offset - p) / p + 1 :=
        Nat.div_eq_sub_div hp (by omega)
      have hsub : T - offset - p = T - (offset + p) := by omega
      have hfuel : (T - (offset + p)) / p ≤ fuel := by
        rw [← hsub]
        omega
      have hrec := ih (offset + p) hfuel
      simp only [psLoop, hcond, decide_True, if_true]
      rw [hrec, hdiv, ← hsub, List.range_succ_eq_map]
      simp only [List.map_cons, List.map_map, Nat.zero_mul, Nat.add_zero]
      congr 1
      exact List.map_congr_left (fun k _ => by
        simp only [Function.comp_apply, Nat.succ_eq_add_one]
        ring)
    · have h0 : (T - offset) / p = 0 := Nat.div_eq_of_lt (by omega)
      simp [psLoop, hcond, h0]

lemma psLoop_top (env : ApiEnv) (p : Nat) (hp : 0 < p) :
    (psLoop env p (env.totalCount + 1) none 0).2
      = (List.range (max 1 (env.totalCount / p))).map (fun k => k * p) := by
  have hfuel : (env.totalCount - p) / p ≤ env.totalCount :=
    le_trans (Nat.div_le_self _ _) (Nat.sub_le _ _)
  simp only [psLoop, if_true, Nat.zero_add]
  rw [psLoop_offsets env p hp env.totalCount env.totalCount p hfuel]
  by_cases hpt : p ≤ env.totalCount
  · have hdiv : env.totalCount / p = (env.totalCount - p) / p + 1 :=
      Nat.div_eq_sub_div hp hpt
    have hge1 : 1 ≤ env.totalCount / p := (Nat.one_le_div_iff hp).mpr hpt
    rw [max_eq_right hge1, hdiv, List.range_succ_eq_map]
    simp only [List.map_cons, List.map_map, Nat.zero_mul]
    congr 1
    exact List.map_congr_left (fun k _ => by
      simp only [Function.comp_apply, Nat.succ_eq_add_one]
      ring)
  · have hTp : env.totalCount - p = 0 := by omega
    have hdiv0 : env.totalCount / p = 0 := Nat.div_eq_of_lt (by omega)
    rw [hTp, hdiv0]
    simp [Nat.zero_div, List.range_succ]

/-- C1 (amended): with a positive page size `p` and no filters, the
paginator issues `max 1 (totalCount / p)` page requests — one probe page
even when the total is zero — at the offsets `0, p, 2p, ...`, each exactly
once and none exceeding the total; with `totalCount = 0` only the single
initial request happens.  (The claimed `ceil (totalCount / p)` count does
not hold: a final partial page is never requested.) -/
theorem pagination_request_pattern (env : ApiEnv) (opts : Options)
    (hp : 0 < opts.pagination) (hs : opts.programSearch = none) :
    ∃ sets, getProgramSets env opts []
        = Except.ok (sets,
          (List.range (max 1 (env.totalCount / opts.pagination))).map
            (fun k => IssuedQuery.programSetsPage [] (k * opts.pagination))) ∧
      ((List.range (max 1 (env.totalCount / opts.pagination))).map
          (fun k => k * opts.pagination)).Nodup ∧
      (∀ o ∈ (List.range (max 1 (env.totalCount / opts.pagination))).map
          (fun k => k * opts.pagination), o ≤ env.totalCount) := by
  have hbf : buildFilters opts [] = Except.ok [] := by
    simp only [buildFilters, hs]
    rfl
  refine ⟨(psLoop env opts.pagination (env.totalCount + 1) none 0).1.map
      (fun n => mkAudiothekProgramSet n.id n.title n.sharingUrl n.description n.synopsis),
    ?_, ?_, ?_⟩
  · simp only [getProgramSets, hbf, ebind_ok]
    rw [psLoop_top env opts.pagination hp, List.map_map]
    rfl
  · exact List.Nodup.map
      (fun a b hab => Nat.eq_of_mul_eq_mul_right hp hab)
      (List.nodup_range _)
  · intro o ho
    simp only [List.mem_map, List.mem_range] at ho
    obtain ⟨k, hk, rfl⟩ := ho
    by_cases hd : env.totalCount / opts.pagination = 0
    · have hk1 : k = 0 := by
        rw [hd] at hk
        omega
      simp [hk1]
    · have hk2 : k < env.totalCount / opts.pagination := by
        have h1 : 1 ≤ env.totalCount / opts.pagination := Nat.one_le_iff_ne_zero.mpr hd
        rwa [max_eq_right h1] at hk
      have hmul : (k + 1) * opts.pagination ≤ env.totalCount :=
        le_trans (Nat.mul_le_mul_right _ hk2) (Nat.div_mul_le_self _ _)
      calc k * opts.pagination ≤ (k + 1) * opts.pagination :=
            Nat.mul_le_mul_right _ (by omega)
        _ ≤ env.totalCount := hmul

/-- Environment reporting five total program sets. -/
def envC1 : ApiEnv :=
  { categoriesData := [], totalCount := 5, page := fun _ => [], byIdNodes := [],
    episodeData := fun _ =>
      { title := "", path := "", synopsis := "", sharingUrl := "",
        imageUrl1X1 := none, items := [] } }

/-- Options with page size two and no filters. -/
def optsC1 : Options := { optsDefault with pagination := 2 }

/-- C1 counterexample: with `totalCount = 5` and page size `2`, the loop
issues two page requests (offsets 0 and 2), not `ceil (5 / 2) = 3` — the
final partial page at offset 4 is never requested. -/
theorem pagination_ceil_counterexample :
    getProgramSets envC1 optsC1 []
      = Except.ok ([], [IssuedQuery.programSetsPage [] 0,
          IssuedQuery.programSetsPage [] 2]) ∧
    envC1.totalCount = 5 ∧ optsC1.pagination = 2 ∧ (5 + 2 - 1) / 2 = 3 :=
  ⟨rfl, rfl, rfl, rfl⟩

/-- C1 witness: the amended pagination statement applied to the concrete
run with `totalCount = 5` and page size `2`. -/
theorem pagination_request_pattern_witness :
    0 < optsC1.pagination ∧ optsC1.programSearch = none ∧
    (∃ sets, getProgramSets envC1 optsC1 []
        = Except.ok (sets, [IssuedQuery.programSetsPage [] 0,
            IssuedQuery.programSetsPage [] 2]) ∧
      ([0, 2] : List Nat).Nodup ∧
      (∀ o ∈ ([0, 2] : List Nat), o ≤ envC1.totalCount)) :=
  ⟨by decide, rfl, pagination_request_pattern envC1 optsC1 (by decide) rfl⟩

end Audiothek
